import Mathlib

/-!
Verification of the VXL five-point essential-matrix solver
(gel/mrc/vpgl/algo/vpgl_em_compute_5_point.h) against its specification.

The C++ class vpgl_em_compute_5_point is embedded shallowly below.  Scalars
(the template parameter T and double) are modelled by the rationals.  The
three external linear-algebra backends that the solver calls (vnl_svd,
vnl_rank_row_reduce, vnl_real_eigensystem) live elsewhere in the VXL tree,
so they enter the embedding as explicit function parameters; everything the
solver itself computes is translated directly from the source.
-/

set_option maxRecDepth 4000

/-- A 2D point, as vgl_point_2d: first component x, second component y. -/
abbrev Pt := ℚ × ℚ

/-- A vector, indexed by naturals (vnl_vector_fixed with entries beyond the
used range irrelevant). -/
abbrev Vec := ℕ → ℚ

/-- A matrix, indexed by naturals (vnl_matrix; dimensions are tracked by the
surrounding code, out-of-range entries are irrelevant). -/
abbrev Mat := ℕ → ℕ → ℚ

/-- A complex scalar: real part, imaginary part (vcl_complex of double). -/
abbrev CQ := ℚ × ℚ

/-- Overwrite one entry of a matrix, as vnl_matrix::put. -/
def matPut (M : Mat) (i j : ℕ) (v : ℚ) : Mat :=
  fun a b => if a = i ∧ b = j then v else M a b

/- ----------------------------------------------------------------- -/
/- Multivariate polynomials (vnl_real_npolynomial).                   -/

/-- One stored term of a vnl_real_npolynomial in the three unknowns
x, y, z: a coefficient together with the three exponents.  (The source
works with a fourth variable w whose exponent is zero in every stored
term; get_coeff inspects only the first three exponent columns, so the
fourth exponent is dropped here.) -/
structure PTerm where
  coeff : ℚ
  xe : ℕ
  ye : ℕ
  ze : ℕ
deriving DecidableEq, Repr

/-- A vnl_real_npolynomial: the stored list of terms. -/
abbrev NPoly := List PTerm

/-- The semantic coefficient of the monomial with exponents (a, b, c):
the sum of the coefficients of all stored terms with those exponents. -/
def coeffAt (p : NPoly) (a b c : ℕ) : ℚ :=
  (p.foldl (fun s t => if t.xe = a ∧ t.ye = b ∧ t.ze = c then s + t.coeff else s) 0)

/-- Add one term into a term list, combining it with an existing term that
has the same exponents if there is one. -/
def addTerm : NPoly → PTerm → NPoly
  | [], t => [t]
  | u :: rest, t =>
      if u.xe = t.xe ∧ u.ye = t.ye ∧ u.ze = t.ze then
        { u with coeff := u.coeff + t.coeff } :: rest
      else
        u :: addTerm rest t

/-- Modelled from the spec: the normalization performed by
vnl_real_npolynomial arithmetic (the simplify step of the VXL class, which
is not under src/): like terms are combined and terms with a zero
coefficient are removed, so a polynomial is stored as a plain sum of
monomial terms. -/
def npSimplify (p : NPoly) : NPoly :=
  (p.foldl addTerm []).filter (fun t => decide (t.coeff ≠ 0))

/-- Modelled from the spec: polynomial addition (operator+ of
vnl_real_npolynomial, not under src/): the terms of both summands, combined. -/
def npAdd (p q : NPoly) : NPoly :=
  npSimplify (p ++ q)

/-- Modelled from the spec: polynomial subtraction (operator- of
vnl_real_npolynomial, not under src/). -/
def npSub (p q : NPoly) : NPoly :=
  npSimplify (p ++ q.map (fun t => { t with coeff := -t.coeff }))

/-- Modelled from the spec: polynomial multiplication (operator* of
vnl_real_npolynomial, not under src/): all pairwise term products,
exponents added, then combined. -/
def npMul (p q : NPoly) : NPoly :=
  npSimplify (p.flatMap fun u => q.map fun v =>
    ⟨u.coeff * v.coeff, u.xe + v.xe, u.ye + v.ye, u.ze + v.ze⟩)

/-- Modelled from the spec: multiplication of a polynomial by a scalar
(operator* with a double, not under src/): every coefficient is scaled. -/
def npSmul (s : ℚ) (p : NPoly) : NPoly :=
  npSimplify (p.map fun t => { t with coeff := s * t.coeff })

/- ----------------------------------------------------------------- -/
/- S1: compute_nullspace_basis.                                       -/

/-- One iteration of the row-filling loop of compute_nullspace_basis:
the nine A.put calls for row i, built from right_points[i] = (xr, yr)
and left_points[i] = (xl, yl). -/
def putRow (r l : List Pt) (i : ℕ) (A : Mat) : Mat :=
  let xr := (r.getD i (0, 0)).1
  let yr := (r.getD i (0, 0)).2
  let xl := (l.getD i (0, 0)).1
  let yl := (l.getD i (0, 0)).2
  matPut (matPut (matPut (matPut (matPut (matPut (matPut (matPut (matPut
    A i 0 (xr * xl)) i 1 (yr * xl)) i 2 xl)
      i 3 (xr * yl)) i 4 (yr * yl)) i 5 yl)
        i 6 xr) i 7 yr) i 8 1

/-- The 5x9 epipolar constraint matrix A of compute_nullspace_basis,
filled row by row by the loop over i = 0..4. -/
def epipolarA (r l : List Pt) : Mat :=
  (List.range 5).foldl (fun A i => putRow r l i A) (fun _ _ => 0)

/-- compute_nullspace_basis: build A, run the SVD backend (vnl_svd is VXL
code not under src/, so it is a parameter svdV returning the right
singular-vector matrix V; the source passes the tolerance to it), and
push back columns 5, 6, 7, 8 of V. -/
def compute_nullspace_basis (svdV : ℚ → Mat → Mat)
    (tol : ℚ) (r l : List Pt) : List Vec :=
  let V := svdV tol (epipolarA r l)
  [5, 6, 7, 8].foldl (fun basis i => basis ++ [fun j => V j i]) []

/- ----------------------------------------------------------------- -/
/- S2: compute_constraint_polynomials.                                -/

/-- The entry polynomials of compute_constraint_polynomials: entry i is
set from coefficients (basis[0][i], basis[1][i], basis[2][i], basis[3][i])
with exponent rows x, y, z and the constant monomial (the 4x4 identity
exponent matrix with its (3,3) entry zeroed). -/
def entry_polynomials (basis : List Vec) (i : ℕ) : NPoly :=
  [⟨basis.getD 0 (fun _ => 0) i, 1, 0, 0⟩,
   ⟨basis.getD 1 (fun _ => 0) i, 0, 1, 0⟩,
   ⟨basis.getD 2 (fun _ => 0) i, 0, 0, 1⟩,
   ⟨basis.getD 3 (fun _ => 0) i, 0, 0, 0⟩]

/-- The determinant constraint pushed first by
compute_constraint_polynomials:
det_term_1 + det_term_2 + det_term_3 with
det_term_1 = E4 * (E0 * E8 - E6 * E2),
det_term_2 = E5 * (E1 * E6 - E0 * E7),
det_term_3 = E3 * (E2 * E7 - E1 * E8). -/
def det_constraint (basis : List Vec) : NPoly :=
  let E := entry_polynomials basis
  npAdd (npAdd
    (npMul (E 4) (npSub (npMul (E 0) (E 8)) (npMul (E 6) (E 2))))
    (npMul (E 5) (npSub (npMul (E 1) (E 6)) (npMul (E 0) (E 7)))))
    (npMul (E 3) (npSub (npMul (E 2) (E 7)) (npMul (E 1) (E 8))))

/-- The running sum entry_polynomials[0]^2 + ... + entry_polynomials[8]^2
built by the sum_of_squares loop. -/
def sum_of_squares (basis : List Vec) : NPoly :=
  let E := entry_polynomials basis
  (List.range 8).foldl (fun acc k => npAdd acc (npMul (E (k + 1)) (E (k + 1))))
    (npMul (E 0) (E 0))

/-- The first product term of the singular-value constraint at index i:
E(i mod 3) * (E0 * E(3(i mod 3)) * 2 + E1 * E(3(i mod 3)+1) * 2
+ E2 * E(3(i mod 3)+2) * 2). -/
def svTerm1 (basis : List Vec) (i : ℕ) : NPoly :=
  let E := entry_polynomials basis
  npMul (E (i % 3))
    (npAdd (npAdd
      (npSmul 2 (npMul (E 0) (E (3 * (i % 3)))))
      (npSmul 2 (npMul (E 1) (E (3 * (i % 3) + 1)))))
      (npSmul 2 (npMul (E 2) (E (3 * (i % 3) + 2)))))

/-- The polynomial pushed by the first singular-value loop at index i:
svTerm1 minus E i * sum_of_squares. -/
def svFirstTerms (basis : List Vec) (i : ℕ) : NPoly :=
  let E := entry_polynomials basis
  npSub (svTerm1 basis i) (npMul (E i) (sum_of_squares basis))

/-- The polynomial added by the second loop at index i:
E((i mod 3)+3) * (E3 * E(3(i mod 3)) * 2 + E4 * E(3(i mod 3)+1) * 2
+ E5 * E(3(i mod 3)+2) * 2). -/
def svSecondTerm (basis : List Vec) (i : ℕ) : NPoly :=
  let E := entry_polynomials basis
  npMul (E (i % 3 + 3))
    (npAdd (npAdd
      (npSmul 2 (npMul (E 3) (E (3 * (i % 3)))))
      (npSmul 2 (npMul (E 4) (E (3 * (i % 3) + 1)))))
      (npSmul 2 (npMul (E 5) (E (3 * (i % 3) + 2)))))

/-- The polynomial added by the third loop at index i:
E((i mod 3)+6) * (E6 * E(3(i mod 3)) * 2 + E7 * E(3(i mod 3)+1) * 2
+ E8 * E(3(i mod 3)+2) * 2). -/
def svThirdTerm (basis : List Vec) (i : ℕ) : NPoly :=
  let E := entry_polynomials basis
  npMul (E (i % 3 + 6))
    (npAdd (npAdd
      (npSmul 2 (npMul (E 6) (E (3 * (i % 3)))))
      (npSmul 2 (npMul (E 7) (E (3 * (i % 3) + 1)))))
      (npSmul 2 (npMul (E 8) (E (3 * (i % 3) + 2)))))

/-- The singular-value constraint polynomial C i exactly as the spec
states it: the three product terms for output index i, minus E i times
the sum of squares.  This definition follows the specification text and
is compared against what the source emits. -/
def svConstraintSpec (basis : List Vec) (i : ℕ) : NPoly :=
  let E := entry_polynomials basis
  npSub
    (npAdd (npAdd (svTerm1 basis i) (svSecondTerm basis i)) (svThirdTerm basis i))
    (npMul (E i) (sum_of_squares basis))

/-- compute_constraint_polynomials, loop for loop: the determinant
constraint is pushed first, the first singular-value loop pushes nine more
polynomials (indices 1..9 of the vector), and then the second and third
loops execute constraints[i] = constraints[i] + ... for i = 0..8 exactly
as written in the source. -/
def compute_constraint_polynomials (basis : List Vec) : List NPoly :=
  let cs0 : List NPoly := [det_constraint basis]
  let cs1 := (List.range 9).foldl
    (fun cs i => cs ++ [svFirstTerms basis i]) cs0
  let cs2 := (List.range 9).foldl
    (fun cs i => cs.modify (fun p => npAdd p (svSecondTerm basis i)) i) cs1
  (List.range 9).foldl
    (fun cs i => cs.modify (fun p => npAdd p (svThirdTerm basis i)) i) cs2

/- ----------------------------------------------------------------- -/
/- S3: get_coeff and compute_groebner_basis.                          -/

/-- get_coeff: walk the stored terms of p; on the first term whose three
exponents are (xp, yp, zp) return its stored coefficient; if no stored
term matches, return -1 (sic, the source returns -1, not 0). -/
def get_coeff (p : NPoly) (xp yp zp : ℕ) : ℚ :=
  match p with
  | [] => -1
  | t :: rest =>
      if t.xe = xp ∧ t.ye = yp ∧ t.ze = zp then t.coeff
      else get_coeff rest xp yp zp

/-- The fixed monomial ordering of the twenty columns:
x3 x2y xy2 y3 x2z xyz y2z xz2 yz2 z3 x2 xy y2 xz yz z2 x y z 1. -/
def monomialOrder : List (ℕ × ℕ × ℕ) :=
  [(3,0,0), (2,1,0), (1,2,0), (0,3,0), (2,0,1), (1,1,1), (0,2,1),
   (1,0,2), (0,1,2), (0,0,3), (2,0,0), (1,1,0), (0,2,0), (1,0,1),
   (0,1,1), (0,0,2), (1,0,0), (0,1,0), (0,0,1), (0,0,0)]

/-- The 10x20 coefficient matrix A of compute_groebner_basis: entry (i, j)
is get_coeff of constraint i at the j-th monomial of the fixed ordering. -/
def groebnerA (constraints : List NPoly) : Mat :=
  fun i j =>
    let e := monomialOrder.getD j (0, 0, 0)
    get_coeff (constraints.getD i []) e.1 e.2.1 e.2.2

/-- compute_groebner_basis: build A, hand it to the row-reduction backend
(vnl_rank_row_reduce is VXL code not under src/, so it is the parameter
rref), and copy out the second 10x10 block.  As in the source, the
reduced matrix rrefed is computed but never read: the copy loop reads
A.get(i, j+10) from the original matrix A. -/
def compute_groebner_basis (rref : Mat → Mat) (constraints : List NPoly) : Mat :=
  let A := groebnerA constraints
  let _rrefed := rref A
  fun i j => A i (j + 10)

/- ----------------------------------------------------------------- -/
/- A reference reduced row echelon form over the rationals.           -/

/-- First row index at or after r (among rows many rows) whose entry in
column c is nonzero. -/
def findPivot (M : Mat) (rows r c : ℕ) : Option ℕ :=
  ((List.range rows).drop r).find? (fun i => decide (M i c ≠ 0))

/-- Exchange two rows of a matrix. -/
def swapRows (M : Mat) (a b : ℕ) : Mat :=
  fun i j => if i = a then M b j else if i = b then M a j else M i j

/-- Scale one row of a matrix. -/
def scaleRow (M : Mat) (r : ℕ) (s : ℚ) : Mat :=
  fun i j => if i = r then s * M i j else M i j

/-- Subtract multiples of (already scaled) pivot row r from every other
row among the first rows rows, clearing column c. -/
def clearColumn (M : Mat) (rows r c : ℕ) : Mat :=
  fun i j => if i < rows ∧ i ≠ r then M i j - M i c * M r j else M i j

/-- One pass of Gauss-Jordan elimination over a list of columns. -/
def rrefGo (rows : ℕ) : Mat → ℕ → List ℕ → Mat
  | M, _, [] => M
  | M, r, c :: rest =>
      match findPivot M rows r c with
      | none => rrefGo rows M r rest
      | some p =>
          let M1 := swapRows M r p
          let M2 := scaleRow M1 r (1 / M1 r c)
          let M3 := clearColumn M2 rows r c
          rrefGo rows M3 (r + 1) rest

/-- Modelled from the spec: reduced row echelon form over the rationals
of a rows x cols matrix, standing in for the row-reduction capability the
spec requires of the host (vnl_rank_row_reduce, VXL code not under src/):
after reduction every pivot is 1 and is the only nonzero entry of its
column. -/
def rrefSpec (rows cols : ℕ) (M : Mat) : Mat :=
  rrefGo rows M 0 (List.range cols)

/- ----------------------------------------------------------------- -/
/- S4: compute_action_matrix.                                         -/

/-- compute_action_matrix: fill with zeros, copy rows 0 1 2 4 5 7 of the
groebner basis into rows 0..5, negate the whole matrix, then put unit
entries at (6,0), (7,1), (8,3), (9,6). -/
def compute_action_matrix (G : Mat) : Mat :=
  fun i j =>
    if i = 0 then -(G 0 j)
    else if i = 1 then -(G 1 j)
    else if i = 2 then -(G 2 j)
    else if i = 3 then -(G 4 j)
    else if i = 4 then -(G 5 j)
    else if i = 5 then -(G 7 j)
    else if i = 6 then (if j = 0 then 1 else 0)
    else if i = 7 then (if j = 1 then 1 else 0)
    else if i = 8 then (if j = 3 then 1 else 0)
    else if i = 9 then (if j = 6 then 1 else 0)
    else 0

/- ----------------------------------------------------------------- -/
/- S5: compute_e_matrices.                                            -/

/-- The result of the eigendecomposition backend (vnl_real_eigensystem is
VXL code not under src/): D is the 10x10 complex diagonal matrix of
eigenvalues, V the complex matrix the source reads eigenvector components
from. -/
structure EigSys where
  D : ℕ → ℕ → CQ
  V : ℕ → ℕ → CQ

/-- The 9-vector assembled in the body of the eigenvalue loop:
w_inv = 1 / Re(V(i,9)), x = Re(V(i,6)) * w_inv, y = Re(V(i,7)) * w_inv,
z = Re(V(i,8)) * w_inv, and linear_e = x * basis[0] + y * basis[1]
+ z * basis[2] + basis[3]. -/
def linear_e (basis : List Vec) (es : EigSys) (i : ℕ) : Vec :=
  let w_inv := 1 / (es.V i 9).1
  let x := (es.V i 6).1 * w_inv
  let y := (es.V i 7).1 * w_inv
  let z := (es.V i 8).1 * w_inv
  fun j =>
    x * basis.getD 0 (fun _ => 0) j + y * basis.getD 1 (fun _ => 0) j +
    z * basis.getD 2 (fun _ => 0) j + basis.getD 3 (fun _ => 0) j

/-- The essential matrix pushed for eigenvalue i: linear_e divided by its
entry 8, laid out row-major as a 3x3 matrix (the vpgl_essential_matrix
constructor, VXL code not under src/, stores the 3x3 matrix it is given;
per the spec the output is that matrix). -/
def emFromEig (basis : List Vec) (es : EigSys) (i : ℕ) : Mat :=
  fun a b => linear_e basis es i (3 * a + b) / linear_e basis es i 8

/-- compute_e_matrices: run the eigendecomposition backend on the action
matrix, and for each of the ten eigenvalues whose imaginary part has
absolute value at most the tolerance, push back the reconstructed
essential matrix. -/
def compute_e_matrices (eig : Mat → EigSys) (tol : ℚ)
    (basis : List Vec) (action : Mat) (ems : List Mat) : List Mat :=
  let es := eig action
  (List.range 10).foldl
    (fun acc i =>
      if |(es.D i i).2| ≤ tol then acc ++ [emFromEig basis es i] else acc)
    ems

/- ----------------------------------------------------------------- -/
/- The top-level compute.                                             -/

/-- The observable outcome of one call to compute: the value returned
(none models the source falling off the end of the function with no
return statement), the final contents of the output vector ems, and the
diagnostics written to the error stream, each naming the two actual input
sizes. -/
structure ComputeResult where
  ret : Option Bool
  ems : List Mat
  diag : List (ℕ × ℕ)

/-- compute: if either input list does not have exactly five points,
print the two sizes when verbose and return false; otherwise run the
five-stage pipeline, appending the essential matrices to ems, and fall
off the end of the function (no return statement on this path). -/
def compute (svdV : ℚ → Mat → Mat) (rref : Mat → Mat) (eig : Mat → EigSys)
    (verbose : Bool) (tol : ℚ)
    (r l : List Pt) (ems : List Mat) : ComputeResult :=
  if r.length ≠ 5 ∨ l.length ≠ 5 then
    { ret := some false
      ems := ems
      diag := if verbose then [(r.length, l.length)] else [] }
  else
    let basis := compute_nullspace_basis svdV tol r l
    let constraints := compute_constraint_polynomials basis
    let G := compute_groebner_basis rref constraints
    let action := compute_action_matrix G
    { ret := none
      ems := compute_e_matrices eig tol basis action ems
      diag := [] }

/- ----------------------------------------------------------------- -/
/- Shared lemmas about the conditional-append loops.                  -/

lemma foldl_guardAppend {α : Type} (c : ℕ → Prop) [DecidablePred c] (g : ℕ → α) :
    ∀ (l : List ℕ) (acc : List α),
      l.foldl (fun a i => if c i then a ++ [g i] else a) acc
        = acc ++ l.foldl (fun a i => if c i then a ++ [g i] else a) [] := by
  intro l
  induction l with
  | nil => intro acc; simp
  | cons x t ih =>
      intro acc
      simp only [List.foldl_cons]
      by_cases hx : c x
      · rw [if_pos hx, if_pos hx, ih (acc ++ [g x]), ih ([] ++ [g x]),
          List.nil_append, List.append_assoc]
      · rw [if_neg hx, if_neg hx, ih acc]

lemma foldl_guardAppend_eq_filter_map {α : Type} (c : ℕ → Prop) [DecidablePred c]
    (g : ℕ → α) :
    ∀ l : List ℕ,
      l.foldl (fun a i => if c i then a ++ [g i] else a) []
        = (l.filter (fun i => decide (c i))).map g := by
  intro l
  induction l with
  | nil => simp
  | cons x t ih =>
      simp only [List.foldl_cons, List.filter_cons]
      by_cases hx : c x
      · rw [if_pos hx, foldl_guardAppend c g t ([] ++ [g x])]
        simp [hx, ih]
      · simp [hx, ih]

lemma foldl_guardAppend_length {α : Type} (c : ℕ → Prop) [DecidablePred c]
    (g : ℕ → α) :
    ∀ (l : List ℕ) (acc : List α),
      (l.foldl (fun a i => if c i then a ++ [g i] else a) acc).length
        ≤ acc.length + l.length := by
  intro l
  induction l with
  | nil => intro acc; simp
  | cons x t ih =>
      intro acc
      simp only [List.foldl_cons, List.length_cons]
      by_cases hx : c x
      · rw [if_pos hx]
        calc (t.foldl _ (acc ++ [g x])).length
            ≤ (acc ++ [g x]).length + t.length := ih _
          _ = acc.length + 1 + t.length := by simp
          _ ≤ acc.length + (t.length + 1) := by omega
      · rw [if_neg hx]
        calc (t.foldl _ acc).length ≤ acc.length + t.length := ih acc
          _ ≤ acc.length + (t.length + 1) := by omega

lemma compute_e_matrices_eq_append (eig : Mat → EigSys) (tol : ℚ)
    (basis : List Vec) (action : Mat) (ems : List Mat) :
    compute_e_matrices eig tol basis action ems
      = ems ++ compute_e_matrices eig tol basis action [] := by
  unfold compute_e_matrices
  exact foldl_guardAppend (fun i => |((eig action).D i i).2| ≤ tol)
    (emFromEig basis (eig action)) (List.range 10) ems

/- ----------------------------------------------------------------- -/
/- The shape of the list built by compute_constraint_polynomials.     -/

lemma fold_structure (d : NPoly) (f g h : ℕ → NPoly) :
    (List.range 9).foldl (fun cs i => cs.modify (fun p => npAdd p (h i)) i)
      ((List.range 9).foldl (fun cs i => cs.modify (fun p => npAdd p (g i)) i)
        ((List.range 9).foldl (fun cs i => cs ++ [f i]) [d])) =
      [npAdd (npAdd d (g 0)) (h 0),
       npAdd (npAdd (f 0) (g 1)) (h 1),
       npAdd (npAdd (f 1) (g 2)) (h 2),
       npAdd (npAdd (f 2) (g 3)) (h 3),
       npAdd (npAdd (f 3) (g 4)) (h 4),
       npAdd (npAdd (f 4) (g 5)) (h 5),
       npAdd (npAdd (f 5) (g 6)) (h 6),
       npAdd (npAdd (f 6) (g 7)) (h 7),
       npAdd (npAdd (f 7) (g 8)) (h 8),
       f 8] := rfl

lemma constraint_fold_structure (basis : List Vec) :
    compute_constraint_polynomials basis =
      [npAdd (npAdd (det_constraint basis) (svSecondTerm basis 0)) (svThirdTerm basis 0),
       npAdd (npAdd (svFirstTerms basis 0) (svSecondTerm basis 1)) (svThirdTerm basis 1),
       npAdd (npAdd (svFirstTerms basis 1) (svSecondTerm basis 2)) (svThirdTerm basis 2),
       npAdd (npAdd (svFirstTerms basis 2) (svSecondTerm basis 3)) (svThirdTerm basis 3),
       npAdd (npAdd (svFirstTerms basis 3) (svSecondTerm basis 4)) (svThirdTerm basis 4),
       npAdd (npAdd (svFirstTerms basis 4) (svSecondTerm basis 5)) (svThirdTerm basis 5),
       npAdd (npAdd (svFirstTerms basis 5) (svSecondTerm basis 6)) (svThirdTerm basis 6),
       npAdd (npAdd (svFirstTerms basis 6) (svSecondTerm basis 7)) (svThirdTerm basis 7),
       npAdd (npAdd (svFirstTerms basis 7) (svSecondTerm basis 8)) (svThirdTerm basis 8),
       svFirstTerms basis 8] :=
  fold_structure (det_constraint basis) (svFirstTerms basis)
    (svSecondTerm basis) (svThirdTerm basis)

/- ----------------------------------------------------------------- -/
/- Claim theorems.                                                    -/

set_option maxHeartbeats 2000000

/-- C1: the claim states that the ten constraints are emitted in the order
det, C0, ..., C8, with det and each C i given by the determinant and
four-term singular-value formulas.  The code violates this: the second and
third term-addition loops write to constraints[i] instead of
constraints[i+1], so slot 0 receives det plus the second and third terms
of C0, and slot 9 never receives its second and third terms.  The first
conjunct exhibits the list the code actually builds; the remaining
conjuncts evaluate the divergence at the concrete basis with
basis[0] = basis[1] = basis[2] = 0 and basis[3] all ones, where every
entry polynomial is the constant 1: emitted slot 0 is the constant 12
while det is 0, and emitted slot 9 is the constant -3 while C8 is 9. -/
theorem constraint_polynomials_term_loops_shifted :
    (∀ basis : List Vec,
      compute_constraint_polynomials basis =
        [npAdd (npAdd (det_constraint basis) (svSecondTerm basis 0)) (svThirdTerm basis 0),
         npAdd (npAdd (svFirstTerms basis 0) (svSecondTerm basis 1)) (svThirdTerm basis 1),
         npAdd (npAdd (svFirstTerms basis 1) (svSecondTerm basis 2)) (svThirdTerm basis 2),
         npAdd (npAdd (svFirstTerms basis 2) (svSecondTerm basis 3)) (svThirdTerm basis 3),
         npAdd (npAdd (svFirstTerms basis 3) (svSecondTerm basis 4)) (svThirdTerm basis 4),
         npAdd (npAdd (svFirstTerms basis 4) (svSecondTerm basis 5)) (svThirdTerm basis 5),
         npAdd (npAdd (svFirstTerms basis 5) (svSecondTerm basis 6)) (svThirdTerm basis 6),
         npAdd (npAdd (svFirstTerms basis 6) (svSecondTerm basis 7)) (svThirdTerm basis 7),
         npAdd (npAdd (svFirstTerms basis 7) (svSecondTerm basis 8)) (svThirdTerm basis 8),
         svFirstTerms basis 8]) ∧
    coeffAt ((compute_constraint_polynomials
      [fun _ => 0, fun _ => 0, fun _ => 0, fun _ => 1]).getD 0 []) 0 0 0 = 12 ∧
    coeffAt (det_constraint [fun _ => 0, fun _ => 0, fun _ => 0, fun _ => 1]) 0 0 0 = 0 ∧
    coeffAt ((compute_constraint_polynomials
      [fun _ => 0, fun _ => 0, fun _ => 0, fun _ => 1]).getD 9 []) 0 0 0 = -3 ∧
    coeffAt (svConstraintSpec [fun _ => 0, fun _ => 0, fun _ => 0, fun _ => 1] 8) 0 0 0 = 9 := by
  have h0 : (compute_constraint_polynomials
      [fun _ => 0, fun _ => 0, fun _ => 0, fun _ => 1]).getD 0 [] =
      npAdd (npAdd (det_constraint [fun _ => 0, fun _ => 0, fun _ => 0, fun _ => 1])
        (svSecondTerm [fun _ => 0, fun _ => 0, fun _ => 0, fun _ => 1] 0))
        (svThirdTerm [fun _ => 0, fun _ => 0, fun _ => 0, fun _ => 1] 0) := by
    rw [constraint_fold_structure]; rfl
  have h9 : (compute_constraint_polynomials
      [fun _ => 0, fun _ => 0, fun _ => 0, fun _ => 1]).getD 9 [] =
      svFirstTerms [fun _ => 0, fun _ => 0, fun _ => 0, fun _ => 1] 8 := by
    rw [constraint_fold_structure]; rfl
  refine ⟨constraint_fold_structure, ?_, ?_, ?_, ?_⟩
  · rw [h0]
    norm_num [det_constraint, svSecondTerm, svThirdTerm, entry_polynomials, npAdd,
      npSub, npMul, npSmul, npSimplify, addTerm, coeffAt, List.foldl, List.flatMap]
  · norm_num [det_constraint, entry_polynomials, npAdd, npSub, npMul, npSmul,
      npSimplify, addTerm, coeffAt, List.foldl, List.flatMap]
  · rw [h9]
    norm_num [svFirstTerms, svTerm1, sum_of_squares, entry_polynomials, npAdd, npSub,
      npMul, npSmul, npSimplify, addTerm, coeffAt, List.foldl, List.flatMap,
      List.range_succ]
  · norm_num [svConstraintSpec, svTerm1, svSecondTerm, svThirdTerm, sum_of_squares,
      entry_polynomials, npAdd, npSub, npMul, npSmul, npSimplify, addTerm, coeffAt,
      List.foldl, List.flatMap, List.range_succ]

/-- C2: the claim states that the output of compute_groebner_basis is
columns 10..19 of the row-reduced matrix, with columns 0..9 an identity
block.  The code computes the reduced matrix into a local that it never
reads, and copies columns 10..19 of the original, unreduced matrix A
instead.  The first conjunct proves the output is columns 10..19 of A for
every row-reduction backend whatsoever; the remaining conjuncts evaluate
the divergence at the ten constraints all equal to x^3 + 1 (a 10x20
matrix with ten identical rows): the code emits -1 at entry (1, 0) while
column 10 of row 1 of the reduced row echelon form is 0. -/
theorem groebner_basis_copies_unreduced_matrix :
    (∀ (rref : Mat → Mat) (cs : List NPoly) (i j : ℕ),
      compute_groebner_basis rref cs i j = groebnerA cs i (j + 10)) ∧
    compute_groebner_basis (rrefSpec 10 20)
      (List.replicate 10 [⟨1,3,0,0⟩, ⟨1,0,0,0⟩]) 1 0 = -1 ∧
    rrefSpec 10 20 (groebnerA (List.replicate 10 [⟨1,3,0,0⟩, ⟨1,0,0,0⟩])) 1 10 = 0 := by
  refine ⟨fun rref cs i j => rfl, ?_, ?_⟩
  · norm_num [compute_groebner_basis, groebnerA, monomialOrder, get_coeff,
      List.replicate]
  · norm_num [rrefSpec, rrefGo, findPivot, swapRows, scaleRow, clearColumn,
      groebnerA, monomialOrder, get_coeff, List.replicate, List.range_succ,
      List.find?]

/-- C3: whenever either input list does not have exactly five points,
compute returns false, appends nothing to the output vector (so the
produced set of essential matrices is empty), and emits one diagnostic
naming the two actual sizes exactly when verbose is set.  The embedded
compute is a total function, so no crash is possible. -/
theorem compute_rejects_wrong_input_sizes
    (svdV : ℚ → Mat → Mat) (rref : Mat → Mat) (eig : Mat → EigSys)
    (verbose : Bool) (tol : ℚ) (r l : List Pt) (ems : List Mat)
    (h : r.length ≠ 5 ∨ l.length ≠ 5) :
    (compute svdV rref eig verbose tol r l ems).ret = some false ∧
    (compute svdV rref eig verbose tol r l ems).ems = ems ∧
    (compute svdV rref eig verbose tol r l ems).diag
      = (if verbose then [(r.length, l.length)] else []) := by
  simp [compute, if_pos h]

theorem compute_rejects_wrong_input_sizes_witness :
    (compute (fun _ _ _ _ => 0) (fun M => M)
      (fun _ => ⟨fun _ _ => (0, 0), fun _ _ => (0, 0)⟩)
      true 0 [] [((1 : ℚ), (2 : ℚ))] []).ret = some false ∧
    (compute (fun _ _ _ _ => 0) (fun M => M)
      (fun _ => ⟨fun _ _ => (0, 0), fun _ _ => (0, 0)⟩)
      true 0 [] [((1 : ℚ), (2 : ℚ))] []).diag = [(0, 1)] :=
  ⟨(compute_rejects_wrong_input_sizes _ _ _ true 0 [] [((1 : ℚ), (2 : ℚ))] []
      (Or.inl (by decide))).1,
   (compute_rejects_wrong_input_sizes _ _ _ true 0 [] [((1 : ℚ), (2 : ℚ))] []
      (Or.inl (by decide))).2.2⟩

/-- C4: the claim (following the spec) states that on two lists of exactly
five points compute runs the pipeline to the end and returns true.  The
source has no return statement after the pipeline: control falls off the
end of the function, so no value is returned (undefined behaviour in C++,
modelled as none).  The conclusion none = some true is false, so the code
does not satisfy the claim on any well-sized input. -/
theorem compute_has_no_terminal_return
    (svdV : ℚ → Mat → Mat) (rref : Mat → Mat) (eig : Mat → EigSys)
    (verbose : Bool) (tol : ℚ) (r l : List Pt) (ems : List Mat)
    (h5r : r.length = 5) (h5l : l.length = 5) :
    (compute svdV rref eig verbose tol r l ems).ret = none := by
  have hc : ¬(r.length ≠ 5 ∨ l.length ≠ 5) := by simp [h5r, h5l]
  simp only [compute, if_neg hc]

theorem compute_has_no_terminal_return_witness :
    (compute (fun _ _ _ _ => 0) (fun M => M)
      (fun _ => ⟨fun _ _ => (0, 0), fun _ _ => (0, 0)⟩) false (1 / 10000)
      [(0, 0), (1, 0), (0, 1), (1, 1), (1/2, 1/2)]
      [(0, 0), (1, 0), (0, 1), (1, 1), (1/2, 1/2)] []).ret = none :=
  compute_has_no_terminal_return _ _ _ false (1 / 10000)
    [(0, 0), (1, 0), (0, 1), (1, 1), (1/2, 1/2)]
    [(0, 0), (1, 0), (0, 1), (1, 1), (1/2, 1/2)] [] rfl rfl

/-- C5: on five-point inputs, compute_nullspace_basis builds the 5x9
epipolar matrix whose row i is [xr xl, yr xl, xl, xr yl, yr yl, yl,
xr, yr, 1] from right_points[i] = (xr, yr) and left_points[i] = (xl, yl),
and outputs exactly four 9-vectors, the k-th being column 5 + k of the
right singular-vector matrix V delivered by the SVD backend.  The
statement is quantified over every possible backend, so the extraction is
by column index alone and no singular-value thresholding intervenes. -/
theorem nullspace_basis_is_columns_5_to_8
    (svdV : ℚ → Mat → Mat) (tol : ℚ) (r l : List Pt)
    (_h5r : r.length = 5) (_h5l : l.length = 5) :
    (compute_nullspace_basis svdV tol r l).length = 4 ∧
    (∀ k, k < 4 → ∀ j, j < 9 →
      (compute_nullspace_basis svdV tol r l).getD k (fun _ => 0) j
        = svdV tol (epipolarA r l) j (5 + k)) ∧
    (∀ i, i < 5 → ∀ j, j < 9 →
      epipolarA r l i j =
        [(r.getD i (0, 0)).1 * (l.getD i (0, 0)).1,
         (r.getD i (0, 0)).2 * (l.getD i (0, 0)).1,
         (l.getD i (0, 0)).1,
         (r.getD i (0, 0)).1 * (l.getD i (0, 0)).2,
         (r.getD i (0, 0)).2 * (l.getD i (0, 0)).2,
         (l.getD i (0, 0)).2,
         (r.getD i (0, 0)).1,
         (r.getD i (0, 0)).2,
         1].getD j 0) := by
  refine ⟨rfl, ?_, ?_⟩
  · intro k hk j hj
    interval_cases k <;> rfl
  · intro i hi j hj
    interval_cases i <;> interval_cases j <;>
      simp [epipolarA, putRow, matPut, List.range_succ]

theorem nullspace_basis_is_columns_5_to_8_witness :
    (compute_nullspace_basis (fun _ _ _ _ => 0) 0
      (List.replicate 5 ((0 : ℚ), (0 : ℚ)))
      (List.replicate 5 ((0 : ℚ), (0 : ℚ)))).length = 4 :=
  (nullspace_basis_is_columns_5_to_8 (fun _ _ _ _ => 0) 0
    (List.replicate 5 ((0 : ℚ), (0 : ℚ)))
    (List.replicate 5 ((0 : ℚ), (0 : ℚ))) rfl rfl).1

/-- C6: compute_e_matrices appends exactly one essential matrix for each
of the ten eigenvalues whose imaginary part is at most the tolerance in
absolute value, namely the matrix emFromEig built from x, y, z recovered
from the eigenvector data, and eigenvalues that fail the filter
contribute nothing; moreover, whenever the eigenvector entry Re(V(i,9))
and the reconstructed 9-vector entry linear_e(..)[8] are nonzero, the
appended matrix has entry (2,2) equal to 1 (entry 8 of the row-major
layout, divided by itself). -/
theorem e_matrices_appended_per_real_eigenvalue
    (eig : Mat → EigSys) (tol : ℚ) (basis : List Vec) (action : Mat)
    (ems : List Mat) :
    (compute_e_matrices eig tol basis action ems =
      ems ++ ((List.range 10).filter
        (fun i => decide (|((eig action).D i i).2| ≤ tol))).map
          (emFromEig basis (eig action))) ∧
    (∀ es : EigSys, ∀ i : ℕ,
      (es.V i 9).1 ≠ 0 → linear_e basis es i 8 ≠ 0 →
      emFromEig basis es i 2 2 = 1) := by
  constructor
  · rw [compute_e_matrices_eq_append]
    congr 1
    unfold compute_e_matrices
    exact foldl_guardAppend_eq_filter_map
      (fun i => |((eig action).D i i).2| ≤ tol)
      (emFromEig basis (eig action)) (List.range 10)
  · intro es i hw h8
    unfold emFromEig
    norm_num
    exact div_self h8

theorem e_matrices_appended_per_real_eigenvalue_witness :
    emFromEig [fun _ => 1, fun _ => 1, fun _ => 1, fun _ => 1]
      ⟨fun _ _ => (0, 0), fun _ _ => (1, 0)⟩ 0 2 2 = 1 :=
  (e_matrices_appended_per_real_eigenvalue (fun _ => ⟨fun _ _ => (0, 0), fun _ _ => (1, 0)⟩)
      0 [fun _ => 1, fun _ => 1, fun _ => 1, fun _ => 1] (fun _ _ => 0) []).2
    ⟨fun _ _ => (0, 0), fun _ _ => (1, 0)⟩ 0
    (by norm_num) (by norm_num [linear_e])

/-- C7: on five-point inputs the pipeline runs, and compute_e_matrices
pushes at most one matrix per eigenvalue over a loop of ten iterations,
so at most ten essential matrices are appended to the output vector (and
trivially no fewer than zero). -/
theorem at_most_ten_essential_matrices
    (svdV : ℚ → Mat → Mat) (rref : Mat → Mat) (eig : Mat → EigSys)
    (verbose : Bool) (tol : ℚ) (r l : List Pt) (ems : List Mat)
    (h5r : r.length = 5) (h5l : l.length = 5) :
    (compute svdV rref eig verbose tol r l ems).ems.length ≤ ems.length + 10 := by
  have hc : ¬(r.length ≠ 5 ∨ l.length ≠ 5) := by simp [h5r, h5l]
  simp only [compute, if_neg hc]
  have := foldl_guardAppend_length
    (fun i => |((eig (compute_action_matrix (compute_groebner_basis rref
        (compute_constraint_polynomials (compute_nullspace_basis svdV tol r l))))).D i i).2| ≤ tol)
    (emFromEig (compute_nullspace_basis svdV tol r l)
      (eig (compute_action_matrix (compute_groebner_basis rref
        (compute_constraint_polynomials (compute_nullspace_basis svdV tol r l))))))
    (List.range 10) ems
  simpa [compute_e_matrices] using this

theorem at_most_ten_essential_matrices_witness :
    (compute (fun _ _ _ _ => 0) (fun M => M)
      (fun _ => ⟨fun _ _ => (0, 0), fun _ _ => (0, 0)⟩) false 0
      (List.replicate 5 ((0 : ℚ), (0 : ℚ)))
      (List.replicate 5 ((0 : ℚ), (0 : ℚ))) []).ems.length
      ≤ ([] : List Mat).length + 10 :=
  at_most_ten_essential_matrices (fun _ _ _ _ => 0) (fun M => M)
    (fun _ => ⟨fun _ _ => (0, 0), fun _ _ => (0, 0)⟩) false 0
    (List.replicate 5 ((0 : ℚ), (0 : ℚ)))
    (List.replicate 5 ((0 : ℚ), (0 : ℚ))) [] rfl rfl

/-- C8: the claim asserts that two invocations of compute on identical
inputs produce bit-identical return values and output lists.  The
return-value half fails on the code: on the success path compute reaches
the end of the function with no return statement (the defect recorded
under C4), so the program defines no Boolean return value whose bits two
invocations could agree on.  Reading the claim's return value as the
Boolean the function actually returns (some b with b the returned
Boolean, none when control falls off the end), this counterexample shows
that at a concrete pair of five-point lists no returned Boolean exists
at all. -/
theorem compute_success_path_returns_no_value :
    ¬ ∃ b : Bool,
      (compute (fun _ _ _ _ => 0) (fun M => M)
        (fun _ => ⟨fun _ _ => (0, 0), fun _ _ => (0, 0)⟩) true 0
        [(0, 0), (1, 0), (0, 1), (1, 1), (1/2, 1/2)]
        [(0, 0), (1, 0), (0, 1), (1, 1), (1/2, 1/2)] []).ret = some b := by
  intro hb
  obtain ⟨b, hb⟩ := hb
  simp [compute] at hb

/-- C8 amended: with the linear-algebra backends fixed (the spec assumes
deterministic backends), everything the program defines is a function of
right_points, left_points, verbose and tolerance alone: two invocations
starting from any two initial output vectors write bit-identical
diagnostics, append bit-identical lists of essential matrices, and on the
input-validation failure path both return false.  Only the success-path
return value, which the source never sets, is outside this guarantee. -/
theorem compute_deterministic_in_inputs
    (svdV : ℚ → Mat → Mat) (rref : Mat → Mat) (eig : Mat → EigSys)
    (verbose : Bool) (tol : ℚ) (r l : List Pt) (ems₁ ems₂ : List Mat) :
    (compute svdV rref eig verbose tol r l ems₁).diag
      = (compute svdV rref eig verbose tol r l ems₂).diag ∧
    (compute svdV rref eig verbose tol r l ems₁).ems.drop ems₁.length
      = (compute svdV rref eig verbose tol r l ems₂).ems.drop ems₂.length ∧
    ((r.length ≠ 5 ∨ l.length ≠ 5) →
      (compute svdV rref eig verbose tol r l ems₁).ret = some false ∧
      (compute svdV rref eig verbose tol r l ems₂).ret = some false) := by
  by_cases h : r.length ≠ 5 ∨ l.length ≠ 5
  · refine ⟨?_, ?_, fun _ => ?_⟩ <;> simp [compute, if_pos h, List.drop_length]
  · refine ⟨?_, ?_, fun hh => absurd hh h⟩
    · simp [compute, if_neg h]
    · simp only [compute, if_neg h]
      rw [compute_e_matrices_eq_append _ _ _ _ ems₁,
        compute_e_matrices_eq_append _ _ _ _ ems₂,
        List.drop_left, List.drop_left]

theorem compute_deterministic_in_inputs_witness :
    (compute (fun _ _ _ _ => 0) (fun M => M)
      (fun _ => ⟨fun _ _ => (0, 0), fun _ _ => (0, 0)⟩) false 0
      [] [((1 : ℚ), (2 : ℚ))] [fun _ _ => 3]).ret = some false :=
  ((compute_deterministic_in_inputs (fun _ _ _ _ => 0) (fun M => M)
      (fun _ => ⟨fun _ _ => (0, 0), fun _ _ => (0, 0)⟩) false 0
      [] [((1 : ℚ), (2 : ℚ))] [fun _ _ => 3] []).2.2
    (Or.inl (by decide))).1

/-- C9: get_coeff walks the stored term list and returns -1, not 0, when
no stored term carries exactly the requested exponent triple; hence every
monomial of the fixed ordering that is absent from a constraint
polynomial's stored term list enters the 10x20 matrix of
compute_groebner_basis as the value -1. -/
theorem get_coeff_returns_minus_one_when_absent :
    (∀ (p : NPoly) (a b c : ℕ),
      (∀ t ∈ p, ¬(t.xe = a ∧ t.ye = b ∧ t.ze = c)) →
      get_coeff p a b c = -1) ∧
    (∀ (cs : List NPoly) (i j : ℕ),
      (∀ t ∈ cs.getD i [],
        ¬(t.xe = (monomialOrder.getD j (0, 0, 0)).1 ∧
          t.ye = (monomialOrder.getD j (0, 0, 0)).2.1 ∧
          t.ze = (monomialOrder.getD j (0, 0, 0)).2.2)) →
      groebnerA cs i j = -1) := by
  have base : ∀ (a b c : ℕ) (p : NPoly),
      (∀ t ∈ p, ¬(t.xe = a ∧ t.ye = b ∧ t.ze = c)) →
      get_coeff p a b c = -1 := by
    intro a b c p
    induction p with
    | nil => intro _; rfl
    | cons t rest ih =>
        intro h
        unfold get_coeff
        rw [if_neg (h t (List.mem_cons_self t rest))]
        exact ih (fun u hu => h u (List.mem_cons_of_mem t hu))
  refine ⟨fun p a b c h => base a b c p h, ?_⟩
  intro cs i j h
  unfold groebnerA
  exact base _ _ _ _ h

theorem get_coeff_returns_minus_one_when_absent_witness :
    get_coeff [⟨5, 2, 0, 0⟩] 1 0 0 = -1 :=
  get_coeff_returns_minus_one_when_absent.1 [⟨5, 2, 0, 0⟩] 1 0 0
    (by intro t ht; simp at ht; simp [ht])

/-- C10: compute never removes or reorders what the caller already had in
the output vector: for every initial contents of ems, the final contents
are exactly the initial contents followed by the matrices this call
produced (the list produced from an empty initial vector). -/
theorem compute_only_appends_to_ems
    (svdV : ℚ → Mat → Mat) (rref : Mat → Mat) (eig : Mat → EigSys)
    (verbose : Bool) (tol : ℚ) (r l : List Pt) (ems : List Mat) :
    (compute svdV rref eig verbose tol r l ems).ems
      = ems ++ (compute svdV rref eig verbose tol r l []).ems := by
  by_cases h : r.length ≠ 5 ∨ l.length ≠ 5
  · simp [compute, if_pos h]
  · simp only [compute, if_neg h]
    rw [compute_e_matrices_eq_append]
